import Mathlib

set_option maxHeartbeats 1000000

/-!
Shallow embedding of the pywallet portfolio valuation and price-normalization
pipeline (`utils/stock_price.py` and `utils/portfolio.py`).

Modelling conventions:
* Python / pandas floats are modelled as `ℚ`, except where pandas performs an
  unguarded division (which yields `inf`/`-inf`/`NaN` instead of raising); such
  values are modelled by `ExtVal`.
* Ticker strings are modelled as `List Char`; Python's `str.replace`,
  `str.strip`, `str.upper` and the anchored regexes used by the source are
  implemented directly on character lists.
* Network calls (yfinance) are modelled by explicit oracle arguments: the data
  the provider would return is passed in, and a fetch failure (empty data or a
  raised exception caught by the source's `try/except`) is `none`.
* Streamlit `st.session_state` caches are passed and returned explicitly.
* `np.random` draws are modelled by an explicit stream `ℕ → ℚ`; a fixed seed
  (`np.random.seed(42)`) means the stream is the same on every call.
-/

/-- Extended value as produced by pandas/numpy float arithmetic: finite,
`+inf`, `-inf`, or `NaN`.  Used where the source divides without a guard. -/
inductive ExtVal where
  | fin (q : ℚ)
  | posInf
  | negInf
  | nan
  deriving DecidableEq, Repr

/-- numpy division `a / b`: finite quotient for `b ≠ 0`; for `b = 0` it yields
`+inf`, `-inf` or `NaN` according to the sign of `a` (no exception). -/
def extDiv (a b : ℚ) : ExtVal :=
  if b ≠ 0 then ExtVal.fin (a / b)
  else if 0 < a then ExtVal.posInf
  else if a < 0 then ExtVal.negInf
  else ExtVal.nan

/-- Multiplication of an extended value by the positive constant 100
(pandas `series * 100`). -/
def extMul100 : ExtVal → ExtVal
  | ExtVal.fin q => ExtVal.fin (q * 100)
  | ExtVal.posInf => ExtVal.posInf
  | ExtVal.negInf => ExtVal.negInf
  | ExtVal.nan => ExtVal.nan

/-- Strict comparison on non-NaN extended values; NaN compares false either
way (as in numpy). -/
def extLt : ExtVal → ExtVal → Bool
  | ExtVal.nan, _ => false
  | _, ExtVal.nan => false
  | ExtVal.negInf, ExtVal.negInf => false
  | ExtVal.negInf, _ => true
  | ExtVal.fin _, ExtVal.negInf => false
  | ExtVal.fin x, ExtVal.fin y => decide (x < y)
  | ExtVal.fin _, ExtVal.posInf => true
  | ExtVal.posInf, _ => false

/-! ### Character helpers (ASCII, as used by the source's regexes) -/

/-- ASCII decimal digit (codepoints 48-57). -/
def isDigitC (c : Char) : Bool := decide (48 ≤ c.toNat) && decide (c.toNat ≤ 57)

/-- ASCII uppercase letter (codepoints 65-90). -/
def isUpperC (c : Char) : Bool := decide (65 ≤ c.toNat) && decide (c.toNat ≤ 90)

/-- Character class `[A-Z0-9]` of the BDR regex. -/
def isUpperAlnum (c : Char) : Bool := isUpperC c || isDigitC c

/-- Python `str.upper` on one character (ASCII case; other characters are
left unchanged, which is all the source's tickers exercise). -/
def pyUpper (c : Char) : Char :=
  if decide (97 ≤ c.toNat) && decide (c.toNat ≤ 122) then
    Char.ofNat (c.toNat - 32)
  else c

/-- Python whitespace stripped by `str.strip()`. -/
def isPySpace (c : Char) : Bool :=
  decide (c = ' ') || decide (c = '\t') || decide (c = '\n') || decide (c = '\r')
    || decide (c = Char.ofNat 11) || decide (c = Char.ofNat 12)

/-- Python `ticker.replace('.SA', '')`: removes every occurrence of `".SA"`
in one left-to-right pass (`stock_price.py` line 91). -/
def stripSA : List Char → List Char
  | [] => []
  | [c] => [c]
  | [c1, c2] => [c1, c2]
  | c1 :: c2 :: c3 :: rest =>
    if c1 = '.' ∧ c2 = 'S' ∧ c3 = 'A' then stripSA rest
    else c1 :: stripSA (c2 :: c3 :: rest)

/-- Python `ticker.replace('.US', '')`: removes every occurrence of `".US"`
in one left-to-right pass (`stock_price.py` lines 131 and 162). -/
def stripUS : List Char → List Char
  | [] => []
  | [c] => [c]
  | [c1, c2] => [c1, c2]
  | c1 :: c2 :: c3 :: rest =>
    if c1 = '.' ∧ c2 = 'U' ∧ c3 = 'S' then stripUS rest
    else c1 :: stripUS (c2 :: c3 :: rest)

/-- Python `str.strip()`: drop leading and trailing whitespace. -/
def pyStrip (l : List Char) : List Char :=
  ((l.dropWhile isPySpace).reverse.dropWhile isPySpace).reverse

/-- `ticker.strip().upper()` as performed by `format_ticker_for_yfinance`
(`stock_price.py` line 158). -/
def pyNormalize (l : List Char) : List Char := (pyStrip l).map pyUpper

/-- The anchored regex `^[A-Z0-9]{4,6}3[4-6]$` (BDR shape): 6 to 8 characters,
all but the last two in `[A-Z0-9]`, then `'3'` and one of `'4'`,`'5'`,`'6'`.
The end anchor forces the split, so this equals the regex. -/
def bdrShape (l : List Char) : Bool :=
  decide (6 ≤ l.length) && decide (l.length ≤ 8)
    && (l.take (l.length - 2)).all isUpperAlnum
    && decide (l[l.length - 2]? = some '3')
    && (decide (l[l.length - 1]? = some '4')
        || decide (l[l.length - 1]? = some '5')
        || decide (l[l.length - 1]? = some '6'))

/-- The anchored regex `^[A-Z]{3,6}[0-9]{1,2}$` (Brazilian equity shape).
Since letters and digits are disjoint the split is unique: the maximal
uppercase-letter prefix must have length 3–6 and the rest must be 1–2
digits. -/
def brShape (l : List Char) : Bool :=
  let a := l.takeWhile isUpperC
  let b := l.dropWhile isUpperC
  decide (3 ≤ a.length) && decide (a.length ≤ 6)
    && decide (1 ≤ b.length) && decide (b.length ≤ 2) && b.all isDigitC

/-- The anchored regex `^[A-Z]{1,5}$` (bare US ticker shape). -/
def usShape (l : List Char) : Bool :=
  decide (1 ≤ l.length) && decide (l.length ≤ 5) && l.all isUpperC

/-- Known-BDR deny list of `is_brazilian_stock` (`stock_price.py` line 94). -/
def bdrsKnown : List (List Char) :=
  ["NVDC34".toList, "A1MD34".toList, "GOGL34".toList, "MSFT34".toList,
   "AAPL34".toList, "AMZO34".toList, "NFLX34".toList]

/-- Known Brazilian ETFs (`stock_price.py` line 107). -/
def etfsBrasileiros : List (List Char) :=
  ["BOVA11".toList, "SMAL11".toList, "IVVB11".toList, "PIBB11".toList]

/-- Known US ETFs (`stock_price.py` lines 125-128). -/
def usEtfs : List (List Char) :=
  ["SPY".toList, "VOO".toList, "QQQ".toList, "IVV".toList, "VTI".toList,
   "SPYI".toList, "IEF".toList, "TLT".toList, "AGG".toList, "BND".toList,
   "VEA".toList, "VWO".toList, "GLD".toList, "VIG".toList, "VXUS".toList,
   "SPHD".toList]

/-- Brazilian-stock exception list inside `is_us_stock`
(`stock_price.py` line 140). -/
def brazilianStocksKnown : List (List Char) :=
  ["VALE".toList, "PETR".toList, "ITUB".toList, "BBDC".toList,
   "BBAS".toList, "ABEV".toList, "ITSA".toList]

/-- `is_brazilian_stock` (`stock_price.py` lines 80-111): strip `".SA"`, deny
known BDRs and the BDR shape, then accept the Brazilian equity shape or a
known Brazilian ETF. -/
def is_brazilian_stock (ticker : List Char) : Bool :=
  let t := stripSA ticker
  if t ∈ bdrsKnown then false
  else if bdrShape t then false
  else if brShape t then true
  else decide (t ∈ etfsBrasileiros)

/-- `is_us_stock` (`stock_price.py` lines 113-144): uppercase and strip
`".US"`, then accept known US ETFs, or the bare 1-5-letter shape minus a
Brazilian exception list. -/
def is_us_stock (ticker : List Char) : Bool :=
  let c := stripUS (ticker.map pyUpper)
  if c ∈ usEtfs then true
  else if usShape c then decide (c ∉ brazilianStocksKnown)
  else false

/-- `format_ticker_for_yfinance` (`stock_price.py` lines 146-171): normalize,
keep an existing `.SA`/`.US` suffix (dropping `.US`), else add `.SA` for
Brazilian tickers, leave US tickers bare, and default to `.SA`. -/
def format_ticker_for_yfinance (ticker : List Char) : List Char :=
  let t := pyNormalize ticker
  if (".SA".toList.isSuffixOf t || ".US".toList.isSuffixOf t) then stripUS t
  else if is_brazilian_stock t then t ++ ".SA".toList
  else if is_us_stock t then t
  else t ++ ".SA".toList

/-- The three market classes of the specification. -/
inductive Market where
  | domestic
  | foreign
  | depositaryReceipt
  deriving DecidableEq, Repr

/-- The three-way market assignment realized by `get_stock_info`
(`stock_price.py` lines 468-525): BDR shape first, then US, else
domestic/other. -/
def classifyTicker (ticker : List Char) : Market :=
  if bdrShape ticker then Market.depositaryReceipt
  else if is_us_stock ticker then Market.foreign
  else Market.domestic

/-- `re.sub(r'3[4-6]$', '', ticker)` (`stock_price.py` line 476): drop a
trailing `'3'` followed by `'4'`/`'5'`/`'6'`. -/
def stripTrailing34 (l : List Char) : List Char :=
  if decide (l[l.length - 2]? = some '3')
      && (decide (l[l.length - 1]? = some '4')
          || decide (l[l.length - 1]? = some '5')
          || decide (l[l.length - 1]? = some '6'))
      && decide (2 ≤ l.length) then
    l.take (l.length - 2)
  else l

/-- The `bdr_mapping` table of `get_stock_info` (`stock_price.py`
lines 479-487); unmapped bases fall back to the stripped base itself
(`bdr_mapping.get(base_ticker, base_ticker)`). -/
def bdrMappingGet (base : List Char) : List Char :=
  if base = "NVDC".toList then "NVDA".toList
  else if base = "A1MD".toList then "AMD".toList
  else if base = "GOGL".toList then "GOOG".toList
  else if base = "MSFT".toList then "MSFT".toList
  else if base = "AAPL".toList then "AAPL".toList
  else if base = "AMZO".toList then "AMZN".toList
  else if base = "NFLX".toList then "NFLX".toList
  else base

/-- The provider symbol `get_stock_info` queries (`stock_price.py`
lines 468-525): BDRs are redirected to the underlying foreign ticker via
`bdr_mapping` (fallback: the base with the trailing two digits stripped),
US tickers are used bare, everything else goes through
`format_ticker_for_yfinance`. -/
def get_stock_info_symbol (ticker : List Char) : List Char :=
  if bdrShape ticker then bdrMappingGet (stripTrailing34 ticker)
  else if is_us_stock ticker then ticker
  else format_ticker_for_yfinance ticker

/-! ### Exchange-rate gateway with session cache (`get_exchange_rate`,
`stock_price.py` lines 24-78) -/

/-- The two session-state keys `exchange_rate_{pair}` and
`exchange_rate_time_{pair}` for one currency pair. -/
structure FxCache where
  rate : Option ℚ
  time : Option ℚ
  deriving DecidableEq, Repr

/-- Outcome of one `get_exchange_rate` call: the returned rate, the session
state afterwards, whether the provider was consulted, and whether
`st.warning` was emitted. -/
structure FxResult where
  rate : ℚ
  cache : FxCache
  fetched : Bool
  warned : Bool
  deriving DecidableEq, Repr

/-- The cache-freshness test of `stock_price.py` lines 41-45: both keys
present and `now - fetched_at < 3600`. -/
def fxCacheValid (c : FxCache) (now : ℚ) : Bool :=
  match c.rate, c.time with
  | some _, some t0 => decide (now - t0 < 3600)
  | _, _ => false

/-- The fallback constant of `stock_price.py` lines 69 and 76:
5.0 for USD→BRL, else 1.0. -/
def fallbackRate (fromCur toCur : String) : ℚ :=
  if fromCur = "USD" ∧ toCur = "BRL" then 5 else 1

/-- `get_exchange_rate` (`stock_price.py` lines 24-78).  `fetchResult` is the
provider's answer: `some r` for a non-empty 1-day history with latest close
`r`; `none` for empty data or a raised exception (both take a fallback path
that returns the fixed constant and warns; neither path stores to the
cache). -/
def get_exchange_rate (fromCur toCur : String) (c : FxCache) (now : ℚ)
    (fetchResult : Option ℚ) : FxResult :=
  if fxCacheValid c now then
    { rate := c.rate.getD 0, cache := c, fetched := false, warned := false }
  else
    match fetchResult with
    | some r => { rate := r, cache := { rate := some r, time := some now },
                  fetched := true, warned := false }
    | none => { rate := fallbackRate fromCur toCur, cache := c,
                fetched := true, warned := true }

/-! ### Quote gateway (`fetch_current_price`, `stock_price.py`
lines 224-275) -/

/-- The `ticker.info` fields that `fetch_current_price` inspects, in source
order. -/
structure TickerInfo where
  currentPrice : Option ℚ
  regularMarketPrice : Option ℚ
  previousClose : Option ℚ
  openPrice : Option ℚ
  dayHigh : Option ℚ
  ask : Option ℚ
  deriving DecidableEq, Repr

/-- What the provider returns for one symbol: the `Close` column of
`history(period="1d")` and the `info` dictionary. -/
structure TickerData where
  closeHist : List ℚ
  info : TickerInfo
  deriving DecidableEq, Repr

/-- The `price_options` list of `stock_price.py` lines 254-261, in source
order. -/
def infoFieldsInOrder (i : TickerInfo) : List (Option ℚ) :=
  [i.currentPrice, i.regularMarketPrice, i.previousClose, i.openPrice,
   i.dayHigh, i.ask]

/-- The fallback loop of `stock_price.py` lines 264-268: return the first
entry that is not `None` and strictly positive. -/
def firstValidPrice : List (Option ℚ) → Option ℚ
  | [] => none
  | none :: rest => firstValidPrice rest
  | some p :: rest => if 0 < p then some p else firstValidPrice rest

/-- `fetch_current_price` (`stock_price.py` lines 224-275): most recent daily
close if the 1-day history is non-empty, else the first positive `info`
field, else `none` (the source's `(None, None)`; exceptions are caught and
also yield `(None, None)`).  The currency is `USD` iff `is_us_stock` holds
for the raw ticker. -/
def fetch_current_price (ticker : List Char) (d : TickerData) :
    Option (ℚ × String) :=
  let cur := if is_us_stock ticker then "USD" else "BRL"
  match d.closeHist.getLast? with
  | some p => some (p, cur)
  | none =>
    match firstValidPrice (infoFieldsInOrder d.info) with
    | some p => some (p, cur)
    | none => none

/-! ### Valuation engine (`calculate_portfolio_metrics`,
`portfolio.py` lines 5-155) -/

/-- One row of the portfolio DataFrame.  `precoAtual`, `moeda` and `setor`
are meaningful only when the corresponding column-presence flag of `PDF`
is set; the source tests column presence, not per-cell nullness. -/
structure PHolding where
  ticker : String
  precoMedio : ℚ
  quantidade : ℚ
  precoAtual : ℚ
  moeda : String
  setor : String
  deriving DecidableEq, Repr

/-- The portfolio DataFrame: rows plus column-presence flags.
`hasRequired` stands for the presence of the `ticker`, `preco_medio` and
`quantidade` columns checked at `portfolio.py` lines 27-30. -/
structure PDF where
  rows : List PHolding
  hasRequired : Bool
  hasPrecoAtual : Bool
  hasMoeda : Bool
  hasSetor : Bool
  deriving DecidableEq, Repr

/-- One row of the working DataFrame after the computed columns of
`portfolio.py` lines 49-68 are added. -/
structure CompRow where
  ticker : String
  precoMedio : ℚ
  quantidade : ℚ
  precoAtual : ℚ
  moeda : String
  setor : String
  valorInvestidoOrig : ℚ
  valorAtualOrig : ℚ
  valorInvestidoBrl : ℚ
  valorAtualBrl : ℚ
  retornoValorOrig : ℚ
  retornoValorBrl : ℚ
  retornoPercentual : ExtVal
  deriving DecidableEq, Repr

/-- A best/worst performer entry. -/
structure Performer where
  ticker : String
  returnPercent : ExtVal
  deriving DecidableEq, Repr

/-- The six keys returned on the empty-portfolio path
(`portfolio.py` lines 17-24). -/
structure BasicMetrics where
  totalInvestment : ℚ
  currentValue : ℚ
  totalReturn : ℚ
  percentReturn : ℚ
  bestPerformer : Performer
  worstPerformer : Performer
  deriving DecidableEq, Repr

/-- One entry of `currency_metrics` (`portfolio.py` lines 114-120). -/
structure CurrencyMetric where
  currency : String
  investment : ℚ
  currentValue : ℚ
  percentage : ℚ
  deriving DecidableEq, Repr

/-- One entry of `sector_metrics` (`portfolio.py` lines 133-139). -/
structure SectorMetric where
  sector : String
  investment : ℚ
  currentValue : ℚ
  returnValue : ℚ
  returnPercent : ExtVal
  deriving DecidableEq, Repr

/-- The full metrics dictionary returned on the non-empty path
(`portfolio.py` lines 144-155). -/
structure PortfolioMetrics where
  totalInvestment : ℚ
  currentValue : ℚ
  totalReturn : ℚ
  percentReturn : ℚ
  bestPerformer : Performer
  worstPerformer : Performer
  currencyMetrics : List CurrencyMetric
  sectorMetrics : List SectorMetric
  portfolioData : List CompRow
  exchangeRateUsdBrl : ℚ
  deriving DecidableEq, Repr

/-- The two possible shapes of the returned dictionary: the reduced
empty-portfolio dictionary, or the full one. -/
inductive MetricsOut where
  | basic (m : BasicMetrics)
  | full (m : PortfolioMetrics)
  deriving DecidableEq, Repr

/-- The literal empty-portfolio dictionary (`portfolio.py` lines 17-24). -/
def emptyBasic : BasicMetrics :=
  { totalInvestment := 0, currentValue := 0, totalReturn := 0,
    percentReturn := 0,
    bestPerformer := { ticker := "N/A", returnPercent := ExtVal.fin 0 },
    worstPerformer := { ticker := "N/A", returnPercent := ExtVal.fin 0 } }

/-- The simulated-price write of `portfolio.py` line 36:
`preco_medio * (1 + draw)` for one uniform draw per row, in row order. -/
def attachRowsAux (sim : ℕ → ℚ) : ℕ → List PHolding → List PHolding
  | _, [] => []
  | i, r :: rest =>
    { r with precoAtual := r.precoMedio * (1 + sim i) }
      :: attachRowsAux sim (i + 1) rest

/-- `portfolio.py` lines 33-36: when the `preco_atual` column is missing,
write a simulated current-price column into the caller's DataFrame (this
happens before the working copy is taken).  `sim` is the
`np.random.seed(42); np.random.uniform(-0.15, 0.25, n)` draw stream. -/
def attachPrices (pdf : PDF) (sim : ℕ → ℚ) : PDF :=
  if pdf.hasPrecoAtual then pdf
  else { pdf with rows := attachRowsAux sim 0 pdf.rows, hasPrecoAtual := true }

/-- The per-row computed columns of `portfolio.py` lines 49-68.  The `moeda`
default `'BRL'` (line 43) is applied on the working copy via the flag. -/
def mkCompRow (rate : ℚ) (hasMoeda : Bool) (r : PHolding) : CompRow :=
  let moeda := if hasMoeda then r.moeda else "BRL"
  let vio := r.precoMedio * r.quantidade
  let vao := r.precoAtual * r.quantidade
  let vib := if moeda = "USD" then vio * rate else vio
  let vab := if moeda = "USD" then vao * rate else vao
  { ticker := r.ticker, precoMedio := r.precoMedio,
    quantidade := r.quantidade, precoAtual := r.precoAtual,
    moeda := moeda, setor := r.setor,
    valorInvestidoOrig := vio, valorAtualOrig := vao,
    valorInvestidoBrl := vib, valorAtualBrl := vab,
    retornoValorOrig := vao - vio, retornoValorBrl := vab - vib,
    retornoPercentual := extMul100 (extDiv (vao - vio) vio) }

/-- `Series.idxmax` / `Series.idxmin` style selection: index of the first
occurrence of the extremum, skipping NaN; `none` when every entry is NaN
(where pandas raises). -/
def pickIdxAux (better : ExtVal → ExtVal → Bool) :
    List ExtVal → ℕ → Option (ℕ × ExtVal) → Option ℕ
  | [], _, best => best.map Prod.fst
  | v :: rest, i, best =>
    if v = ExtVal.nan then pickIdxAux better rest (i + 1) best
    else
      match best with
      | none => pickIdxAux better rest (i + 1) (some (i, v))
      | some (bi, bv) =>
        if better bv v then pickIdxAux better rest (i + 1) (some (i, v))
        else pickIdxAux better rest (i + 1) (some (bi, bv))

/-- `idxmax` over the `retorno_percentual` column (`portfolio.py` line 90). -/
def idxmaxE (l : List ExtVal) : Option ℕ := pickIdxAux extLt l 0 none

/-- `idxmin` over the `retorno_percentual` column (`portfolio.py` line 91). -/
def idxminE (l : List ExtVal) : Option ℕ :=
  pickIdxAux (fun a b => extLt b a) l 0 none

/-- Group keys in first-occurrence order (`groupby` key set; the key order is
immaterial to every stated property). -/
def dedupFirst (l : List String) : List String :=
  l.foldl (fun acc k => if k ∈ acc then acc else acc ++ [k]) []

/-- `currency_metrics` (`portfolio.py` lines 107-120): per-currency sums of
the converted values and the share of the converted total, the share
guarded by `current_value > 0`. -/
def currencyMetricsOf (comp : List CompRow) (currentValue : ℚ) :
    List CurrencyMetric :=
  (dedupFirst (comp.map (fun r => r.moeda))).map (fun cu =>
    let rows := comp.filter (fun r => r.moeda = cu)
    let inv := (rows.map (fun r => r.valorInvestidoBrl)).sum
    let cv := (rows.map (fun r => r.valorAtualBrl)).sum
    { currency := cu, investment := inv, currentValue := cv,
      percentage := if 0 < currentValue then cv / currentValue * 100 else 0 })

/-- `sector_metrics` (`portfolio.py` lines 123-139): per-sector sums; the
per-sector percent return (line 131) is an unguarded pandas division. -/
def sectorMetricsOf (comp : List CompRow) : List SectorMetric :=
  (dedupFirst (comp.map (fun r => r.setor))).map (fun s =>
    let rows := comp.filter (fun r => r.setor = s)
    let inv := (rows.map (fun r => r.valorInvestidoBrl)).sum
    let cv := (rows.map (fun r => r.valorAtualBrl)).sum
    { sector := s, investment := inv, currentValue := cv,
      returnValue := cv - inv,
      returnPercent := extMul100 (extDiv (cv - inv) inv) })

/-- The non-empty-path computation of `calculate_portfolio_metrics`
(`portfolio.py` lines 49-155), on the working copy.  The error case models
the pandas `idxmax`/`idxmin` failure when the whole `retorno_percentual`
column is NaN. -/
def calcCore (rows : List PHolding) (hasMoeda hasSetor : Bool) (rate : ℚ) :
    Except String PortfolioMetrics :=
  let comp := rows.map (mkCompRow rate hasMoeda)
  let ti := (comp.map (fun r => r.valorInvestidoBrl)).sum
  let cv := (comp.map (fun r => r.valorAtualBrl)).sum
  let tr := (comp.map (fun r => r.retornoValorBrl)).sum
  let pr := if 0 < ti then tr / ti * 100 else 0
  let rps := comp.map (fun r => r.retornoPercentual)
  match idxmaxE rps, idxminE rps with
  | some bi, some wi =>
    match comp.get? bi, comp.get? wi with
    | some bRow, some wRow =>
      Except.ok
        { totalInvestment := ti, currentValue := cv, totalReturn := tr,
          percentReturn := pr,
          bestPerformer := { ticker := bRow.ticker,
                             returnPercent := bRow.retornoPercentual },
          worstPerformer := { ticker := wRow.ticker,
                              returnPercent := wRow.retornoPercentual },
          currencyMetrics := currencyMetricsOf comp cv,
          sectorMetrics := if hasSetor then sectorMetricsOf comp else [],
          portfolioData := comp, exchangeRateUsdBrl := rate }
    | _, _ => Except.error "index out of range"
  | _, _ => Except.error "ValueError: idxmax of an all-NaN series"

/-- `calculate_portfolio_metrics` (`portfolio.py` lines 5-155).  Returns the
metrics dictionary, the caller's DataFrame after the call (it gains a
simulated `preco_atual` column when that column was absent), and the FX
session cache after the call.  `Except.error` models the `ValueError` raise
for missing required columns (and the pandas raise of `calcCore`). -/
def calculate_portfolio_metrics (pdf : PDF) (sim : ℕ → ℚ) (st : FxCache)
    (now : ℚ) (fxFetch : Option ℚ) :
    Except String (MetricsOut × PDF × FxCache) :=
  if pdf.rows.isEmpty then Except.ok (MetricsOut.basic emptyBasic, pdf, st)
  else if !pdf.hasRequired then
    Except.error "Colunas obrigatorias ausentes"
  else
    let pdf2 := attachPrices pdf sim
    let fx := get_exchange_rate "USD" "BRL" st now fxFetch
    match calcCore pdf2.rows pdf2.hasMoeda pdf2.hasSetor fx.rate with
    | Except.ok m => Except.ok (MetricsOut.full m, pdf2, fx.cache)
    | Except.error e => Except.error e

/-! ### Price updater (`update_portfolio_prices`, `stock_price.py`
lines 277-386) -/

/-- One entry of the `stock_prices_cache` session dictionary
(`stock_price.py` lines 366-370). -/
structure PriceInfo where
  priceBrl : ℚ
  originalPrice : ℚ
  currency : String
  deriving DecidableEq, Repr

/-- Python dict lookup on the price cache. -/
def cacheLookup (cache : List (List Char × PriceInfo)) (k : List Char) :
    Option PriceInfo :=
  (cache.find? (fun e => e.fst = k)).map Prod.snd

/-- Python dict assignment on the price cache (overwrite or append). -/
def cacheInsert (cache : List (List Char × PriceInfo)) (k : List Char)
    (v : PriceInfo) : List (List Char × PriceInfo) :=
  if (cache.find? (fun e => e.fst = k)).isSome then
    cache.map (fun e => if e.fst = k then (k, v) else e)
  else cache ++ [(k, v)]

/-- One row of the portfolio DataFrame as consumed by
`update_portfolio_prices`; `moeda` is meaningful only when the caller's
DataFrame has that column (flag in the main function). -/
structure URow where
  ticker : List Char
  precoMedio : ℚ
  moeda : String
  deriving DecidableEq, Repr

/-- One row after the update pass: the columns written by
`stock_price.py` lines 332-380. -/
structure UOut where
  ticker : List Char
  precoMedio : ℚ
  moeda : String
  precoAtual : ℚ
  precoAtualBrl : Option ℚ
  precoOriginal : ℚ
  moedaOriginal : String
  deriving DecidableEq, Repr

/-- The body of the per-row loop of `stock_price.py` lines 328-380 for one
row, given the current in-loop price cache.  Returns the written row and
the cache afterwards.  `rand` is the `np.random.uniform(-0.05, 0.05)` draw
used on the failure path for this row. -/
def updateOneRow (useCache : Bool) (provider : List Char → TickerData)
    (rand : ℚ) (rate : ℚ) (cache : List (List Char × PriceInfo))
    (r : URow) : UOut × List (List Char × PriceInfo) :=
  match if useCache then cacheLookup cache r.ticker else none with
  | some pi =>
    (if r.moeda = "USD" then
      { ticker := r.ticker, precoMedio := r.precoMedio, moeda := r.moeda,
        precoAtual := pi.originalPrice, precoAtualBrl := some pi.priceBrl,
        precoOriginal := pi.originalPrice, moedaOriginal := pi.currency }
     else
      { ticker := r.ticker, precoMedio := r.precoMedio, moeda := r.moeda,
        precoAtual := pi.priceBrl, precoAtualBrl := none,
        precoOriginal := pi.originalPrice, moedaOriginal := pi.currency },
     cache)
  | none =>
    match fetch_current_price r.ticker (provider r.ticker) with
    | some (price, currency) =>
      let precoAtual :=
        if r.moeda = "USD" then price
        else if currency = "USD" then price * rate
        else price
      let precoAtualBrl :=
        if r.moeda = "USD" then some (price * rate) else none
      let entry : PriceInfo :=
        { priceBrl := if currency = "USD" then price * rate else price,
          originalPrice := price, currency := currency }
      ({ ticker := r.ticker, precoMedio := r.precoMedio, moeda := r.moeda,
         precoAtual := precoAtual, precoAtualBrl := precoAtualBrl,
         precoOriginal := price, moedaOriginal := currency },
       cacheInsert cache r.ticker entry)
    | none =>
      let rf := 1 + rand
      ({ ticker := r.ticker, precoMedio := r.precoMedio, moeda := r.moeda,
         precoAtual := r.precoMedio * rf,
         precoAtualBrl :=
           if r.moeda = "USD" then some (r.precoMedio * rf * rate) else none,
         precoOriginal := r.precoMedio * rf, moedaOriginal := r.moeda },
       cache)

/-- The row loop of `stock_price.py` lines 328-380, threading the in-loop
price cache; `i` numbers the rows so each failure row gets its own draw
from `rand`. -/
def updateRowsAux (useCache : Bool) (provider : List Char → TickerData)
    (rand : ℕ → ℚ) (rate : ℚ) :
    ℕ → List (List Char × PriceInfo) → List URow →
    List UOut × List (List Char × PriceInfo)
  | _, cache, [] => ([], cache)
  | i, cache, r :: rest =>
    let step := updateOneRow useCache provider (rand i) rate cache r
    let next := updateRowsAux useCache provider rand rate
      (i + 1) step.2 rest
    (step.1 :: next.1, next.2)

/-- `update_portfolio_prices` (`stock_price.py` lines 277-386) on the
non-simulation path.  `sessionCache` and `cacheFresh` model the
`stock_prices_cache` session entry and its freshness test (lines 310-321);
the FX rate is obtained through `get_exchange_rate` (line 324).  Returns
the updated rows and the session price cache written back at lines
382-384. -/
def update_portfolio_prices (rows : List URow) (hasMoeda : Bool)
    (cacheFresh : Bool) (sessionCache : List (List Char × PriceInfo))
    (provider : List Char → TickerData) (rand : ℕ → ℚ) (fxc : FxCache)
    (now : ℚ) (fxFetch : Option ℚ) :
    List UOut × List (List Char × PriceInfo) :=
  if rows.isEmpty then ([], sessionCache)
  else
    let rows2 := if hasMoeda then rows
      else rows.map (fun r => { r with moeda := "BRL" })
    let cache0 := if cacheFresh then sessionCache else []
    let rate := (get_exchange_rate "USD" "BRL" fxc now fxFetch).rate
    updateRowsAux cacheFresh provider rand rate 0 cache0 rows2

/-! ### Lemmas about the ticker classifier -/

/-- Number of ASCII digits in a character list. -/
def dcount (l : List Char) : ℕ := l.countP isDigitC

theorem countP_ext (p q : Char → Bool) (l : List Char)
    (h : ∀ a ∈ l, p a = q a) : l.countP p = l.countP q := by
  induction l with
  | nil => rfl
  | cons a t ih =>
    simp only [List.countP_cons, h a (by simp),
      ih (fun x hx => h x (by simp [hx]))]

theorem dcount_stripSA (l : List Char) : dcount (stripSA l) = dcount l := by
  induction l using stripSA.induct with
  | case1 => rfl
  | case2 c => rfl
  | case3 c1 c2 => rfl
  | case4 c1 c2 c3 rest h ih =>
    obtain ⟨h1, h2, h3⟩ := h
    subst h1; subst h2; subst h3
    unfold stripSA
    rw [if_pos ⟨rfl, rfl, rfl⟩]
    simp [dcount, List.countP_cons, isDigitC] at ih ⊢
    omega
  | case5 c1 c2 c3 rest h ih =>
    unfold stripSA
    rw [if_neg h]
    simp [dcount, List.countP_cons] at ih ⊢
    omega

theorem dcount_stripUS (l : List Char) : dcount (stripUS l) = dcount l := by
  induction l using stripUS.induct with
  | case1 => rfl
  | case2 c => rfl
  | case3 c1 c2 => rfl
  | case4 c1 c2 c3 rest h ih =>
    obtain ⟨h1, h2, h3⟩ := h
    subst h1; subst h2; subst h3
    unfold stripUS
    rw [if_pos ⟨rfl, rfl, rfl⟩]
    simp [dcount, List.countP_cons, isDigitC] at ih ⊢
    omega
  | case5 c1 c2 c3 rest h ih =>
    unfold stripUS
    rw [if_neg h]
    simp [dcount, List.countP_cons] at ih ⊢
    omega

theorem isDigitC_pyUpper (c : Char) : isDigitC (pyUpper c) = isDigitC c := by
  unfold pyUpper
  split
  · rename_i hc
    simp only [Bool.and_eq_true, decide_eq_true_eq] at hc
    have hcv : c.toNat = c.val.toNat := rfl
    have hv : (Char.ofNat (c.toNat - 32)).toNat = c.toNat - 32 := by
      unfold Char.ofNat Char.toNat
      split
      · rfl
      · rename_i hvalid
        exact absurd (Or.inl (by omega)) hvalid
    unfold isDigitC
    rw [hv]
    have e1 : decide (c.toNat - 32 ≤ 57) = false := by
      simp only [decide_eq_false_iff_not]; omega
    have e2 : decide (c.toNat ≤ 57) = false := by
      simp only [decide_eq_false_iff_not]; omega
    rw [e1, e2]
    simp
  · rfl

theorem dcount_map_pyUpper (l : List Char) :
    dcount (l.map pyUpper) = dcount l := by
  unfold dcount
  rw [List.countP_map]
  exact countP_ext _ _ l (fun a _ => by
    simp only [Function.comp_apply, isDigitC_pyUpper])

theorem brShape_dcount (l : List Char) (h : brShape l = true) :
    1 ≤ dcount l := by
  unfold brShape at h
  simp only [Bool.and_eq_true, decide_eq_true_eq, List.all_eq_true] at h
  obtain ⟨⟨⟨⟨-, -⟩, hb1⟩, -⟩, hall⟩ := h
  have hdrop : List.countP isDigitC (l.dropWhile isUpperC)
      = (l.dropWhile isUpperC).length :=
    List.countP_eq_length.mpr hall
  have happ : List.countP isDigitC (l.takeWhile isUpperC ++ l.dropWhile isUpperC)
      = List.countP isDigitC (l.takeWhile isUpperC)
        + List.countP isDigitC (l.dropWhile isUpperC) :=
    List.countP_append ..
  rw [List.takeWhile_append_dropWhile] at happ
  unfold dcount
  omega

theorem etfsBR_dcount (l : List Char) (h : l ∈ etfsBrasileiros) :
    1 ≤ dcount l := by
  unfold etfsBrasileiros at h
  simp only [List.mem_cons, List.not_mem_nil, or_false] at h
  rcases h with h | h | h | h <;> subst h <;> decide

theorem usEtfs_dcount (l : List Char) (h : l ∈ usEtfs) : dcount l = 0 := by
  unfold usEtfs at h
  simp only [List.mem_cons, List.not_mem_nil, or_false] at h
  rcases h with h|h|h|h|h|h|h|h|h|h|h|h|h|h|h|h <;> subst h <;> decide

theorem usShape_dcount (l : List Char) (h : usShape l = true) :
    dcount l = 0 := by
  unfold usShape at h
  simp only [Bool.and_eq_true, decide_eq_true_eq, List.all_eq_true] at h
  obtain ⟨-, hall⟩ := h
  refine List.countP_eq_zero.mpr (fun a ha => ?_)
  have hu := hall a ha
  unfold isUpperC at hu
  unfold isDigitC
  simp only [Bool.and_eq_true, decide_eq_true_eq] at hu
  simp only [Bool.and_eq_true, decide_eq_true_eq, not_and]
  omega

theorem is_brazilian_dcount (l : List Char)
    (h : is_brazilian_stock l = true) : 1 ≤ dcount l := by
  rw [← dcount_stripSA l]
  simp only [is_brazilian_stock] at h
  split at h
  · exact absurd h (by simp)
  · split at h
    · exact absurd h (by simp)
    · split at h
      · rename_i hbr
        exact brShape_dcount _ hbr
      · exact etfsBR_dcount _ (of_decide_eq_true h)

theorem is_us_dcount (l : List Char) (h : is_us_stock l = true) :
    dcount l = 0 := by
  rw [← dcount_map_pyUpper l, ← dcount_stripUS (l.map pyUpper)]
  simp only [is_us_stock] at h
  split at h
  · exact usEtfs_dcount _ (by assumption)
  · split at h
    · exact usShape_dcount _ (by assumption)
    · simp at h

theorem brazilian_us_never_both (l : List Char) :
    ¬(is_brazilian_stock l = true ∧ is_us_stock l = true) := by
  rintro ⟨hb, hu⟩
  have h1 := is_brazilian_dcount l hb
  have h2 := is_us_dcount l hu
  omega

theorem bdrShape_dcount (l : List Char) (h : bdrShape l = true) :
    1 ≤ dcount l := by
  unfold bdrShape at h
  simp only [Bool.and_eq_true, decide_eq_true_eq] at h
  obtain ⟨⟨⟨⟨h6, -⟩, -⟩, h3⟩, -⟩ := h
  have hlt : l.length - 2 < l.length := by omega
  rw [List.getElem?_eq_getElem hlt] at h3
  have h3' : l[l.length - 2] = '3' := by injection h3
  have hmem : ('3' : Char) ∈ l := h3' ▸ List.getElem_mem hlt
  have hpos : 0 < List.countP isDigitC l :=
    List.countP_pos_iff.mpr ⟨'3', hmem, by decide⟩
  unfold dcount
  omega

theorem is_us_not_bdrShape (l : List Char) (h : is_us_stock l = true) :
    bdrShape l = false := by
  by_contra hb
  rw [Bool.not_eq_false] at hb
  have h1 := bdrShape_dcount l hb
  have h2 := is_us_dcount l h
  omega

theorem bdrShape_no_dot (l : List Char) (h : bdrShape l = true) :
    ∀ c ∈ l, c ≠ '.' := by
  unfold bdrShape at h
  simp only [Bool.and_eq_true, decide_eq_true_eq, Bool.or_eq_true,
    List.all_eq_true] at h
  obtain ⟨⟨⟨⟨h6, h8⟩, hall⟩, h3⟩, hlast⟩ := h
  intro c hc hdot
  subst hdot
  obtain ⟨i, hi, hgi⟩ := List.getElem_of_mem hc
  by_cases hlt : i < l.length - 2
  · have htk : i < (l.take (l.length - 2)).length := by
      simp only [List.length_take]
      omega
    have he : (l.take (l.length - 2))[i] = l[i] := List.getElem_take l
    have hmem : l[i] ∈ l.take (l.length - 2) := by
      rw [← he]
      exact List.getElem_mem htk
    have := hall _ hmem
    rw [hgi] at this
    simp [isUpperAlnum, isUpperC, isDigitC] at this
  · by_cases heq : i = l.length - 2
    · subst heq
      rw [List.getElem?_eq_getElem hi] at h3
      rw [hgi] at h3
      simp at h3
    · have heq1 : i = l.length - 1 := by omega
      subst heq1
      rw [List.getElem?_eq_getElem hi] at hlast
      rw [hgi] at hlast
      simp at hlast

theorem stripSA_eq_self (l : List Char) (h : ∀ c ∈ l, c ≠ '.') :
    stripSA l = l := by
  induction l using stripSA.induct with
  | case1 => rfl
  | case2 c => rfl
  | case3 c1 c2 => rfl
  | case4 c1 c2 c3 rest hc ih =>
    exact absurd hc.1 (h c1 (by simp))
  | case5 c1 c2 c3 rest hc ih =>
    unfold stripSA
    rw [if_neg hc]
    rw [ih (fun c hmem => h c (by simp [List.mem_cons] at hmem ⊢; tauto))]

theorem is_brazilian_not_bdrShape (l : List Char)
    (h : is_brazilian_stock l = true) : bdrShape l = false := by
  by_contra hb
  rw [Bool.not_eq_false] at hb
  have hself : stripSA l = l := stripSA_eq_self l (bdrShape_no_dot l hb)
  simp only [is_brazilian_stock, hself, hb] at h
  split at h
  · simp at h
  · simp at h

/-! ### Claim theorems: ticker classification -/

/-- C4: ticker classification is pure and total.  All classifier functions
are total Lean functions of the input string (so they terminate and never
raise), the Brazilian and US predicates are never both true, the three-way
market assignment of `classifyTicker` agrees with the predicates (so each
ticker lands in exactly one of Domestic / Foreign / Depositary_Receipt),
and when no pattern matches the lookup symbol defaults to the Domestic
form: normalized ticker followed by ".SA". -/
theorem C4_classifier_total_exclusive_default (t : List Char) :
    (¬(is_brazilian_stock t = true ∧ is_us_stock t = true))
    ∧ (is_brazilian_stock t = true → classifyTicker t = Market.domestic)
    ∧ (is_us_stock t = true → classifyTicker t = Market.foreign)
    ∧ (bdrShape t = true → classifyTicker t = Market.depositaryReceipt)
    ∧ ((".SA".toList.isSuffixOf (pyNormalize t) = false) →
       (".US".toList.isSuffixOf (pyNormalize t) = false) →
       is_brazilian_stock (pyNormalize t) = false →
       is_us_stock (pyNormalize t) = false →
       format_ticker_for_yfinance t = pyNormalize t ++ ".SA".toList) := by
  refine ⟨brazilian_us_never_both t, ?_, ?_, ?_, ?_⟩
  · intro hb
    have h1 := is_brazilian_not_bdrShape t hb
    have h2 : is_us_stock t = false := by
      by_contra hu
      rw [Bool.not_eq_false] at hu
      exact brazilian_us_never_both t ⟨hb, hu⟩
    unfold classifyTicker
    rw [h1, h2]
    rfl
  · intro hu
    have h1 := is_us_not_bdrShape t hu
    unfold classifyTicker
    rw [h1, hu]
    rfl
  · intro hb
    unfold classifyTicker
    rw [hb]
    rfl
  · intro hsa hus hbr huss
    simp only [format_ticker_for_yfinance]
    rw [hsa, hus, hbr, huss]
    simp

/-- C4 witness: the concrete ticker "XX--" matches no suffix and neither
predicate, so the classifier defaults to the Domestic lookup symbol
"XX--.SA". -/
theorem C4_witness :
    format_ticker_for_yfinance "XX--".toList
      = pyNormalize "XX--".toList ++ ".SA".toList :=
  (C4_classifier_total_exclusive_default "XX--".toList).2.2.2.2
    (by decide) (by decide) (by decide) (by decide)

/-- C3 counterexample: the market-data (price) lookup symbol that
`format_ticker_for_yfinance` produces for "AAPL34" is "AAPL34.SA" — the
domestic default — and not the underlying foreign ticker "AAPL" asserted
by the claim. -/
theorem C3_counterexample :
    format_ticker_for_yfinance "AAPL34".toList = "AAPL34.SA".toList
    ∧ "AAPL34.SA".toList ≠ "AAPL".toList := by
  refine ⟨?_, ?_⟩ <;> decide

/-- C3 amended: "AAPL34" is classified as a depositary receipt (it is on the
BDR deny list and matches the BDR shape; neither the Brazilian nor the US
predicate holds), and the descriptive-info lookup of `get_stock_info`
resolves it through the fixed BDR table to the underlying foreign ticker
"AAPL" (with trailing-two-digit stripping as the fallback for unmapped
codes, e.g. "TSLA34" to "TSLA"); the price-lookup symbol from
`format_ticker_for_yfinance`, however, is "AAPL34.SA", not "AAPL". -/
theorem C3_amended :
    classifyTicker "AAPL34".toList = Market.depositaryReceipt
    ∧ is_brazilian_stock "AAPL34".toList = false
    ∧ is_us_stock "AAPL34".toList = false
    ∧ "AAPL34".toList ∈ bdrsKnown
    ∧ get_stock_info_symbol "AAPL34".toList = "AAPL".toList
    ∧ get_stock_info_symbol "TSLA34".toList = "TSLA".toList
    ∧ format_ticker_for_yfinance "AAPL34".toList = "AAPL34.SA".toList := by
  refine ⟨?_, ?_, ?_, ?_, ?_, ?_, ?_⟩ <;> decide

/-! ### Claim theorems: quote gateway -/

theorem firstValidPrice_eq_find (l : List (Option ℚ)) :
    firstValidPrice l = (l.filterMap id).find? (fun p => decide (0 < p)) := by
  induction l with
  | nil => rfl
  | cons o rest ih =>
    cases o with
    | none => simpa [firstValidPrice, List.filterMap_cons] using ih
    | some p =>
      simp only [firstValidPrice, List.filterMap_cons, id]
      by_cases hp : 0 < p
      · rw [if_pos hp, List.find?_cons_of_pos _ (by simpa using hp)]
      · rw [if_neg hp, List.find?_cons_of_neg _ (by simpa using hp), ih]

/-- C5: `fetch_current_price` first tries the most recent daily close; when
the 1-day history is empty it scans the info fields in the exact order
currentPrice, regularMarketPrice, previousClose, open, dayHigh, ask and
returns the first non-null strictly positive one; when none is available it
returns `none` (the source's `(None, None)`), never raising. -/
theorem C5_fetch_price_order (t : List Char) (d : TickerData) :
    (∀ p, d.closeHist.getLast? = some p →
      fetch_current_price t d
        = some (p, if is_us_stock t then "USD" else "BRL"))
    ∧ (d.closeHist = [] →
      fetch_current_price t d
        = (((infoFieldsInOrder d.info).filterMap id).find?
            (fun p => decide (0 < p))).map
            (fun p => (p, if is_us_stock t then "USD" else "BRL")))
    ∧ (d.closeHist = [] →
      (∀ p ∈ (infoFieldsInOrder d.info).filterMap id, ¬(0 < p)) →
      fetch_current_price t d = none) := by
  refine ⟨?_, ?_, ?_⟩
  · intro p hp
    unfold fetch_current_price
    rw [hp]
  · intro hh
    unfold fetch_current_price
    rw [hh]
    simp only [List.getLast?_nil]
    rw [firstValidPrice_eq_find]
    cases hfind : ((infoFieldsInOrder d.info).filterMap id).find?
        (fun p => decide (0 < p)) with
    | none => rfl
    | some p => rfl
  · intro hh hnone
    unfold fetch_current_price
    rw [hh]
    simp only [List.getLast?_nil]
    rw [firstValidPrice_eq_find]
    rw [List.find?_eq_none.mpr (fun p hp => by simpa using hnone p hp)]

/-- C5 witness: with an empty 1-day history and info fields
(None, -1, 2, 3, None, None) the fetch returns the first positive fallback
field (previousClose = 2) with the BRL currency tag for "PETR4". -/
theorem C5_witness :
    fetch_current_price "PETR4".toList
      { closeHist := [],
        info := { currentPrice := none, regularMarketPrice := some 0,
                  previousClose := some 2, openPrice := some 3,
                  dayHigh := none, ask := none } }
      = some (2, "BRL") := by
  have h := (C5_fetch_price_order "PETR4".toList
    { closeHist := [],
      info := { currentPrice := none, regularMarketPrice := some 0,
                previousClose := some 2, openPrice := some 3,
                dayHigh := none, ask := none } }).2.1 rfl
  rw [h]
  decide

/-! ### Claim theorems: exchange-rate gateway and cache -/

/-- C6: whenever the exchange-rate fetch actually runs (cache miss) and
fails — empty provider data or a raised exception, both modelled by the
`none` fetch result — `get_exchange_rate` returns the fixed fallback 5.0
for the USD→BRL pair, emits a non-fatal warning, and (being a total
function into `FxResult`) never propagates the failure as an exception. -/
theorem C6_fx_fallback (c : FxCache) (now : ℚ)
    (h : fxCacheValid c now = false) :
    get_exchange_rate "USD" "BRL" c now none
      = { rate := 5, cache := c, fetched := true, warned := true } := by
  unfold get_exchange_rate
  rw [h]
  simp [fallbackRate]

/-- C6 witness: with an empty cache at time 0 and a failing fetch, the call
returns rate 5 with a warning. -/
theorem C6_witness :
    get_exchange_rate "USD" "BRL" { rate := none, time := none } 0 none
      = { rate := 5, cache := { rate := none, time := none },
          fetched := true, warned := true } :=
  C6_fx_fallback { rate := none, time := none } 0 rfl

/-- C7: the cached value is returned without invoking the fetcher iff a
cached entry exists (both keys) and `now - fetched_at < 3600`; otherwise
the fetcher runs and, on success, the new rate is stored with a fresh
timestamp. -/
theorem C7_fx_cache_iff (fromCur toCur : String) (c : FxCache) (now : ℚ)
    (fr : Option ℚ) :
    ((get_exchange_rate fromCur toCur c now fr).fetched = false
      ↔ fxCacheValid c now = true)
    ∧ (∀ r0, c.rate = some r0 → fxCacheValid c now = true →
        get_exchange_rate fromCur toCur c now fr
          = { rate := r0, cache := c, fetched := false, warned := false })
    ∧ (fxCacheValid c now = false → ∀ v, fr = some v →
        get_exchange_rate fromCur toCur c now fr
          = { rate := v, cache := { rate := some v, time := some now },
              fetched := true, warned := false }) := by
  refine ⟨?_, ?_, ?_⟩
  · unfold get_exchange_rate
    cases hv : fxCacheValid c now with
    | true => simp
    | false =>
      cases fr with
      | none => simp
      | some v => simp
  · intro r0 hr hv
    unfold get_exchange_rate
    rw [hv]
    simp [hr]
  · intro hv v hfr
    unfold get_exchange_rate
    rw [hv, hfr]
    simp

/-- C7 witness: a warm cache entry (rate 4, fetched at 0, read at 10) is
served without fetching; the same entry read at 5000 is stale, so the
fetcher's answer 9 is stored with the fresh timestamp. -/
theorem C7_witness :
    get_exchange_rate "USD" "BRL" { rate := some 4, time := some 0 } 10
        (some 9)
      = { rate := 4, cache := { rate := some 4, time := some 0 },
          fetched := false, warned := false }
    ∧ get_exchange_rate "USD" "BRL" { rate := some 4, time := some 0 } 5000
        (some 9)
      = { rate := 9, cache := { rate := some 9, time := some 5000 },
          fetched := true, warned := false } :=
  ⟨(C7_fx_cache_iff "USD" "BRL" { rate := some 4, time := some 0 } 10
      (some 9)).2.1 4 rfl (by norm_num [fxCacheValid]),
   (C7_fx_cache_iff "USD" "BRL" { rate := some 4, time := some 0 } 5000
      (some 9)).2.2 (by norm_num [fxCacheValid]) 9 rfl⟩

/-! ### Claim theorems: valuation engine -/

theorem calcCore_ok_fields (rows : List PHolding) (hm hs : Bool) (rate : ℚ)
    (m : PortfolioMetrics) (h : calcCore rows hm hs rate = Except.ok m) :
    m.portfolioData = rows.map (mkCompRow rate hm)
    ∧ m.totalInvestment
        = ((rows.map (mkCompRow rate hm)).map
            (fun r => r.valorInvestidoBrl)).sum
    ∧ m.currentValue
        = ((rows.map (mkCompRow rate hm)).map (fun r => r.valorAtualBrl)).sum
    ∧ m.totalReturn
        = ((rows.map (mkCompRow rate hm)).map
            (fun r => r.retornoValorBrl)).sum
    ∧ m.percentReturn
        = (if 0 < m.totalInvestment
           then m.totalReturn / m.totalInvestment * 100 else 0)
    ∧ m.exchangeRateUsdBrl = rate := by
  simp only [calcCore] at h
  split at h
  · split at h
    · rename_i bRow wRow bi wi hbi hwi
      injection h with h
      subst h
      exact ⟨rfl, rfl, rfl, rfl, rfl, rfl⟩
    · simp at h
  · simp at h

theorem mkCompRow_vib (rate : ℚ) (r : PHolding) :
    (mkCompRow rate true r).valorInvestidoBrl
      = if r.moeda = "USD" then r.precoMedio * r.quantidade * rate
        else r.precoMedio * r.quantidade := rfl

theorem mkCompRow_vab (rate : ℚ) (r : PHolding) :
    (mkCompRow rate true r).valorAtualBrl
      = if r.moeda = "USD" then r.precoAtual * r.quantidade * rate
        else r.precoAtual * r.quantidade := rfl

theorem mkCompRow_rvb (rate : ℚ) (r : PHolding) :
    (mkCompRow rate true r).retornoValorBrl
      = (if r.moeda = "USD" then r.precoAtual * r.quantidade * rate
         else r.precoAtual * r.quantidade)
        - (if r.moeda = "USD" then r.precoMedio * r.quantidade * rate
           else r.precoMedio * r.quantidade) := rfl

/-- C2: for every portfolio of BRL/USD holdings with attached prices,
`total_investment` is the sum over holdings of average_cost x quantity
converted to BRL (USD values multiplied by the exchange rate used for this
run, BRL values taken as-is), `current_value` and `total_return` are
likewise sums of converted per-holding values, `total_investment` is
nonnegative, `percent_return` equals total_return / total_investment x 100
when the total is positive and is exactly 0 when the total is 0; the empty
portfolio returns the all-zero dictionary. -/
theorem C2_portfolio_totals (pdf : PDF) (sim : ℕ → ℚ) (st : FxCache)
    (now : ℚ) (fxFetch : Option ℚ) :
    (pdf.rows = [] →
      calculate_portfolio_metrics pdf sim st now fxFetch
        = Except.ok (MetricsOut.basic emptyBasic, pdf, st))
    ∧ (∀ m pdf2 st2,
      calculate_portfolio_metrics pdf sim st now fxFetch
          = Except.ok (MetricsOut.full m, pdf2, st2) →
      pdf.hasPrecoAtual = true →
      pdf.hasMoeda = true →
      (∀ r ∈ pdf.rows, r.moeda = "BRL" ∨ r.moeda = "USD") →
      (∀ r ∈ pdf.rows, 0 ≤ r.precoMedio ∧ 0 ≤ r.quantidade) →
      0 ≤ m.exchangeRateUsdBrl →
      (m.totalInvestment
          = (pdf.rows.map (fun r =>
              if r.moeda = "USD"
              then m.exchangeRateUsdBrl * (r.precoMedio * r.quantidade)
              else r.precoMedio * r.quantidade)).sum
       ∧ m.currentValue
          = (pdf.rows.map (fun r =>
              if r.moeda = "USD"
              then m.exchangeRateUsdBrl * (r.precoAtual * r.quantidade)
              else r.precoAtual * r.quantidade)).sum
       ∧ m.totalReturn
          = (pdf.rows.map (fun r =>
              (if r.moeda = "USD"
               then m.exchangeRateUsdBrl * (r.precoAtual * r.quantidade)
               else r.precoAtual * r.quantidade)
              - (if r.moeda = "USD"
                 then m.exchangeRateUsdBrl * (r.precoMedio * r.quantidade)
                 else r.precoMedio * r.quantidade))).sum
       ∧ 0 ≤ m.totalInvestment
       ∧ (m.totalInvestment = 0 → m.percentReturn = 0)
       ∧ (0 < m.totalInvestment →
          m.percentReturn = m.totalReturn / m.totalInvestment * 100))) := by
  constructor
  · intro hnil
    unfold calculate_portfolio_metrics
    rw [if_pos (by simp [hnil])]
  · intro m pdf2 st2 h hpa hm hcur hnn hrate
    unfold calculate_portfolio_metrics at h
    by_cases hnil : pdf.rows.isEmpty
    · rw [if_pos hnil] at h
      simp at h
    · rw [if_neg hnil] at h
      by_cases hreq : pdf.hasRequired
      · rw [if_neg (by simp [hreq])] at h
        have hattach : attachPrices pdf sim = pdf := by
          unfold attachPrices
          rw [if_pos hpa]
        rw [hattach] at h
        simp only [] at h
        set fx := get_exchange_rate "USD" "BRL" st now fxFetch with hfx
        cases hcc : calcCore pdf.rows pdf.hasMoeda pdf.hasSetor fx.rate with
        | error e => rw [hcc] at h; simp at h
        | ok m0 =>
          rw [hcc] at h
          simp only [Except.ok.injEq, Prod.mk.injEq] at h
          obtain ⟨hm0, -, -⟩ := h
          obtain rfl : m = m0 := by
            injection hm0 with hinj
            exact hinj.symm
          rw [hm] at hcc
          obtain ⟨-, hti, hcv, htr, hpr, hrt⟩ :=
            calcCore_ok_fields _ _ _ _ _ hcc
          rw [hrt] at hrate
          have hti' : m.totalInvestment
              = (pdf.rows.map (fun r =>
                  if r.moeda = "USD"
                  then m.exchangeRateUsdBrl * (r.precoMedio * r.quantidade)
                  else r.precoMedio * r.quantidade)).sum := by
            rw [hti, List.map_map]
            congr 1
            refine List.map_congr_left (fun r hr => ?_)
            simp only [Function.comp_apply, mkCompRow_vib, hrt]
            by_cases hu : r.moeda = "USD" <;> simp only [hu, if_pos, if_neg,
              reduceIte, ite_true, ite_false] <;> ring
          have hcv' : m.currentValue
              = (pdf.rows.map (fun r =>
                  if r.moeda = "USD"
                  then m.exchangeRateUsdBrl * (r.precoAtual * r.quantidade)
                  else r.precoAtual * r.quantidade)).sum := by
            rw [hcv, List.map_map]
            congr 1
            refine List.map_congr_left (fun r hr => ?_)
            simp only [Function.comp_apply, mkCompRow_vab, hrt]
            by_cases hu : r.moeda = "USD" <;> simp only [hu, if_pos, if_neg,
              reduceIte, ite_true, ite_false] <;> ring
          have htr' : m.totalReturn
              = (pdf.rows.map (fun r =>
                  (if r.moeda = "USD"
                   then m.exchangeRateUsdBrl * (r.precoAtual * r.quantidade)
                   else r.precoAtual * r.quantidade)
                  - (if r.moeda = "USD"
                     then m.exchangeRateUsdBrl * (r.precoMedio * r.quantidade)
                     else r.precoMedio * r.quantidade))).sum := by
            rw [htr, List.map_map]
            congr 1
            refine List.map_congr_left (fun r hr => ?_)
            simp only [Function.comp_apply, mkCompRow_rvb, hrt]
            by_cases hu : r.moeda = "USD" <;> simp only [hu, if_pos, if_neg,
              reduceIte, ite_true, ite_false] <;> ring
          have hrate' : 0 ≤ m.exchangeRateUsdBrl := by
            rw [hrt]
            exact hrate
          have hnneg : 0 ≤ m.totalInvestment := by
            rw [hti']
            refine List.sum_nonneg (fun x hx => ?_)
            obtain ⟨r, hr, rfl⟩ := List.mem_map.mp hx
            obtain ⟨h1, h2⟩ := hnn r hr
            by_cases hu : r.moeda = "USD"
            · rw [if_pos hu]
              exact mul_nonneg hrate' (mul_nonneg h1 h2)
            · rw [if_neg hu]
              exact mul_nonneg h1 h2
          refine ⟨hti', hcv', htr', hnneg, ?_, ?_⟩
          · intro hz
            rw [hpr, hz]
            simp
          · intro hpos
            rw [hpr, if_pos hpos]
      · rw [if_pos (by simp [hreq])] at h
        simp at h

theorem calc_ok_full_destruct (pdf : PDF) (sim : ℕ → ℚ) (st : FxCache)
    (now : ℚ) (fxFetch : Option ℚ) (m : PortfolioMetrics) (pdf2 : PDF)
    (st2 : FxCache)
    (h : calculate_portfolio_metrics pdf sim st now fxFetch
        = Except.ok (MetricsOut.full m, pdf2, st2)) :
    pdf2 = attachPrices pdf sim
    ∧ st2 = (get_exchange_rate "USD" "BRL" st now fxFetch).cache
    ∧ calcCore (attachPrices pdf sim).rows (attachPrices pdf sim).hasMoeda
        (attachPrices pdf sim).hasSetor
        (get_exchange_rate "USD" "BRL" st now fxFetch).rate
      = Except.ok m := by
  unfold calculate_portfolio_metrics at h
  by_cases hnil : pdf.rows.isEmpty
  · rw [if_pos hnil] at h
    simp at h
  · rw [if_neg hnil] at h
    by_cases hreq : pdf.hasRequired
    · rw [if_neg (by simp [hreq])] at h
      simp only [] at h
      cases hcc : calcCore (attachPrices pdf sim).rows
          (attachPrices pdf sim).hasMoeda (attachPrices pdf sim).hasSetor
          (get_exchange_rate "USD" "BRL" st now fxFetch).rate with
      | error e =>
        rw [hcc] at h
        simp at h
      | ok m0 =>
        rw [hcc] at h
        simp only [Except.ok.injEq, Prod.mk.injEq] at h
        obtain ⟨hm0, hp2, hs2⟩ := h
        obtain rfl : m = m0 := by
          injection hm0 with hinj
          exact hinj.symm
        exact ⟨hp2.symm, hs2.symm, rfl⟩
    · rw [if_pos (by simp [hreq])] at h
      simp at h

theorem extMul100_extDiv_spec (a b : ℚ) :
    (b ≠ 0 → extMul100 (extDiv a b) = ExtVal.fin (a / b * 100))
    ∧ (b = 0 → extMul100 (extDiv a b)
        = (if 0 < a then ExtVal.posInf
           else if a < 0 then ExtVal.negInf else ExtVal.nan)) := by
  constructor
  · intro h
    unfold extDiv
    rw [if_pos h]
    rfl
  · intro h
    subst h
    unfold extDiv
    rw [if_neg (by simp)]
    by_cases h1 : 0 < a
    · rw [if_pos h1]
      rfl
    · rw [if_neg h1]
      by_cases h2 : a < 0
      · rw [if_pos h2]
        rfl
      · rw [if_neg h2]
        rfl

/-- C1 (amended): for every priced holding row of the computed portfolio
data, `retorno_percentual` equals
`(valor_atual - valor_investido) / valor_investido * 100` in the holding's
native currency whenever `valor_investido ≠ 0`; when `valor_investido = 0`
the pandas division is unguarded, so the value is `+inf`, `-inf` or `NaN`
according to the sign of the return — it is not reported as 0. -/
theorem C1_amended_per_holding_return (pdf : PDF) (sim : ℕ → ℚ)
    (st : FxCache) (now : ℚ) (fxFetch : Option ℚ)
    (m : PortfolioMetrics) (pdf2 : PDF) (st2 : FxCache)
    (h : calculate_portfolio_metrics pdf sim st now fxFetch
        = Except.ok (MetricsOut.full m, pdf2, st2)) :
    ∀ i r, m.portfolioData.get? i = some r →
      (r.valorInvestidoOrig = r.precoMedio * r.quantidade
       ∧ r.valorAtualOrig = r.precoAtual * r.quantidade
       ∧ r.retornoValorOrig = r.valorAtualOrig - r.valorInvestidoOrig)
      ∧ (r.valorInvestidoOrig ≠ 0 →
         r.retornoPercentual
           = ExtVal.fin (r.retornoValorOrig / r.valorInvestidoOrig * 100))
      ∧ (r.valorInvestidoOrig = 0 →
         r.retornoPercentual
           = (if 0 < r.retornoValorOrig then ExtVal.posInf
              else if r.retornoValorOrig < 0 then ExtVal.negInf
              else ExtVal.nan)) := by
  obtain ⟨-, -, hcc⟩ := calc_ok_full_destruct _ _ _ _ _ _ _ _ h
  obtain ⟨hpd, -, -, -, -, -⟩ := calcCore_ok_fields _ _ _ _ _ hcc
  intro i r hir
  rw [hpd] at hir
  rw [List.get?_map] at hir
  cases hr0 : (attachPrices pdf sim).rows.get? i with
  | none =>
    rw [hr0] at hir
    simp at hir
  | some r0 =>
    rw [hr0] at hir
    simp only [Option.map] at hir
    injection hir with hir
    subst hir
    refine ⟨⟨rfl, rfl, rfl⟩, ?_, ?_⟩
    · intro hne
      exact (extMul100_extDiv_spec _ _).1 hne
    · intro hz
      exact (extMul100_extDiv_spec _ _).2 hz

/-- A one-holding portfolio whose holding has average cost 0, so its
invested value is 0 (allowed by the data model's `average_cost >= 0`). -/
def c1pdf : PDF :=
  { rows := [{ ticker := "A", precoMedio := 0, quantidade := 1,
               precoAtual := 1, moeda := "BRL", setor := "" }],
    hasRequired := true, hasPrecoAtual := true, hasMoeda := true,
    hasSetor := false }

/-- The computed row for the holding of `c1pdf` at exchange rate 5. -/
def c1row : CompRow :=
  { ticker := "A", precoMedio := 0, quantidade := 1, precoAtual := 1,
    moeda := "BRL", setor := "", valorInvestidoOrig := 0,
    valorAtualOrig := 1, valorInvestidoBrl := 0, valorAtualBrl := 1,
    retornoValorOrig := 1, retornoValorBrl := 1,
    retornoPercentual := ExtVal.posInf }

/-- The metrics `calculate_portfolio_metrics` produces for `c1pdf` with a
warm USD to BRL cache holding rate 5. -/
def c1metrics : PortfolioMetrics :=
  { totalInvestment := 0, currentValue := 1, totalReturn := 1,
    percentReturn := 0,
    bestPerformer := { ticker := "A", returnPercent := ExtVal.posInf },
    worstPerformer := { ticker := "A", returnPercent := ExtVal.posInf },
    currencyMetrics := [{ currency := "BRL", investment := 0,
                          currentValue := 1, percentage := 100 }],
    sectorMetrics := [],
    portfolioData := [c1row],
    exchangeRateUsdBrl := 5 }

/-- C1 counterexample: on a holding with `invested_value = 0` and a positive
current value, `calculate_portfolio_metrics` reports the per-holding
`return_percent` as `+inf` (pandas unguarded division), not as the 0 the
claim asserts. -/
theorem C1_counterexample :
    calculate_portfolio_metrics c1pdf (fun _ => 0)
        { rate := some 5, time := some 0 } 0 none
      = Except.ok (MetricsOut.full c1metrics, c1pdf,
          { rate := some 5, time := some 0 })
    ∧ (c1metrics.portfolioData.get? 0).map
        (fun r => (r.valorInvestidoOrig, r.retornoPercentual))
      = some (0, ExtVal.posInf)
    ∧ ExtVal.posInf ≠ ExtVal.fin 0 := by
  refine ⟨?_, rfl, by decide⟩
  norm_num +decide [calculate_portfolio_metrics, attachPrices,
    get_exchange_rate, fxCacheValid, calcCore, mkCompRow, idxmaxE, idxminE,
    pickIdxAux, extLt, extDiv, extMul100, currencyMetricsOf,
    sectorMetricsOf, dedupFirst, c1pdf, c1metrics, c1row, List.sum_cons,
    List.sum_nil, List.filter, List.get?]

/-- C1 witness: the amended statement applied to the concrete `c1pdf` run:
the zero-investment holding's return percent is the sign-determined
non-finite value (here `+inf`). -/
theorem C1_witness :
    c1row.retornoPercentual
      = (if 0 < c1row.retornoValorOrig then ExtVal.posInf
         else if c1row.retornoValorOrig < 0 then ExtVal.negInf
         else ExtVal.nan) := by
  have hcalc : calculate_portfolio_metrics c1pdf (fun _ => 0)
      { rate := some 5, time := some 0 } 0 none
      = Except.ok (MetricsOut.full c1metrics, c1pdf,
          { rate := some 5, time := some 0 }) := by
    norm_num +decide [calculate_portfolio_metrics, attachPrices,
      get_exchange_rate, fxCacheValid, calcCore, mkCompRow, idxmaxE,
      idxminE, pickIdxAux, extLt, extDiv, extMul100, currencyMetricsOf,
      sectorMetricsOf, dedupFirst, c1pdf, c1metrics, c1row, List.sum_cons,
      List.sum_nil, List.filter, List.get?]
  exact (C1_amended_per_holding_return c1pdf (fun _ => 0)
    { rate := some 5, time := some 0 } 0 none c1metrics c1pdf
    { rate := some 5, time := some 0 } hcalc 0 c1row rfl).2.2 rfl

/-- A two-holding mixed-currency portfolio: one BRL holding
(invested 1000, current 1200) and one USD holding (invested 100,
current 110), as in the specification's mixed-currency scenario. -/
def c2pdf : PDF :=
  { rows := [{ ticker := "X", precoMedio := 10, quantidade := 100,
               precoAtual := 12, moeda := "BRL", setor := "" },
             { ticker := "Y", precoMedio := 20, quantidade := 5,
               precoAtual := 22, moeda := "USD", setor := "" }],
    hasRequired := true, hasPrecoAtual := true, hasMoeda := true,
    hasSetor := false }

/-- The metrics `calculate_portfolio_metrics` produces for `c2pdf` with a
warm USD to BRL cache holding rate 5: totals 1500 / 1750 / 250 in BRL and
percent return 50/3 (about 16.67). -/
def c2metrics : PortfolioMetrics :=
  { totalInvestment := 1500, currentValue := 1750, totalReturn := 250,
    percentReturn := 50 / 3,
    bestPerformer := { ticker := "X", returnPercent := ExtVal.fin 20 },
    worstPerformer := { ticker := "Y", returnPercent := ExtVal.fin 10 },
    currencyMetrics := [{ currency := "BRL", investment := 1000,
                          currentValue := 1200, percentage := 480 / 7 },
                        { currency := "USD", investment := 500,
                          currentValue := 550, percentage := 220 / 7 }],
    sectorMetrics := [],
    portfolioData := [{ ticker := "X", precoMedio := 10, quantidade := 100,
                        precoAtual := 12, moeda := "BRL", setor := "",
                        valorInvestidoOrig := 1000, valorAtualOrig := 1200,
                        valorInvestidoBrl := 1000, valorAtualBrl := 1200,
                        retornoValorOrig := 200, retornoValorBrl := 200,
                        retornoPercentual := ExtVal.fin 20 },
                      { ticker := "Y", precoMedio := 20, quantidade := 5,
                        precoAtual := 22, moeda := "USD", setor := "",
                        valorInvestidoOrig := 100, valorAtualOrig := 110,
                        valorInvestidoBrl := 500, valorAtualBrl := 550,
                        retornoValorOrig := 10, retornoValorBrl := 50,
                        retornoPercentual := ExtVal.fin 10 }],
    exchangeRateUsdBrl := 5 }

/-- C2 witness: the totals theorem applied to the concrete mixed-currency
portfolio `c2pdf` at rate 5: the BRL total investment is the sum of
converted per-holding values, and the percent return matches the ratio
formula. -/
theorem C2_witness :
    c2metrics.totalInvestment
      = (c2pdf.rows.map (fun r =>
          if r.moeda = "USD"
          then c2metrics.exchangeRateUsdBrl * (r.precoMedio * r.quantidade)
          else r.precoMedio * r.quantidade)).sum
    ∧ c2metrics.percentReturn
        = c2metrics.totalReturn / c2metrics.totalInvestment * 100 := by
  have hcalc : calculate_portfolio_metrics c2pdf (fun _ => 0)
      { rate := some 5, time := some 0 } 0 none
      = Except.ok (MetricsOut.full c2metrics, c2pdf,
          { rate := some 5, time := some 0 }) := by
    norm_num +decide [calculate_portfolio_metrics, attachPrices,
      get_exchange_rate, fxCacheValid, calcCore, mkCompRow, idxmaxE,
      idxminE, pickIdxAux, extLt, extDiv, extMul100, currencyMetricsOf,
      sectorMetricsOf, dedupFirst, c2pdf, c2metrics, List.sum_cons,
      List.sum_nil, List.filter, List.get?]
  have h := (C2_portfolio_totals c2pdf (fun _ => 0)
    { rate := some 5, time := some 0 } 0 none).2 c2metrics c2pdf
    { rate := some 5, time := some 0 } hcalc rfl rfl (by decide)
    (by decide) (by decide)
  exact ⟨h.1, h.2.2.2.2.2 (by decide)⟩

theorem attachPrices_hasPrecoAtual (pdf : PDF) (sim : ℕ → ℚ) :
    (attachPrices pdf sim).hasPrecoAtual = true := by
  unfold attachPrices
  split
  · assumption
  · rfl

theorem attachPrices_hasRequired (pdf : PDF) (sim : ℕ → ℚ) :
    (attachPrices pdf sim).hasRequired = pdf.hasRequired := by
  unfold attachPrices
  split
  · rfl
  · rfl

theorem attachPrices_isEmpty (pdf : PDF) (sim : ℕ → ℚ) :
    (attachPrices pdf sim).rows.isEmpty = pdf.rows.isEmpty := by
  unfold attachPrices
  split
  · rfl
  · cases pdf.rows with
    | nil => rfl
    | cons r rest => rfl

theorem attachPrices_idem (pdf : PDF) (sim sim2 : ℕ → ℚ) :
    attachPrices (attachPrices pdf sim) sim2 = attachPrices pdf sim := by
  rw [attachPrices, attachPrices_hasPrecoAtual]
  simp

theorem get_exchange_rate_warm (st : FxCache) (now : ℚ) (fx : Option ℚ)
    (r0 t0 : ℚ) (hr : st.rate = some r0) (ht : st.time = some t0)
    (hv : now - t0 < 3600) :
    get_exchange_rate "USD" "BRL" st now fx
      = { rate := r0, cache := st, fetched := false, warned := false } := by
  have hval : fxCacheValid st now = true := by
    unfold fxCacheValid
    rw [hr, ht]
    exact decide_eq_true hv
  unfold get_exchange_rate
  rw [hval, hr]
  rfl

/-- C9: idempotence under a fully warm cache.  If a first call to
`calculate_portfolio_metrics` succeeds and the cached exchange-rate entry
is fresh at both call times (no TTL expiry in between), then a second call
on the DataFrame and session state the first call returned produces
exactly the same metrics, DataFrame and state — for any draw stream or
provider answer the second call might see (neither is consulted). -/
theorem C9_idempotent (pdf : PDF) (sim : ℕ → ℚ) (st : FxCache)
    (now1 now2 : ℚ) (fx1 : Option ℚ) (r0 t0 : ℚ)
    (m1 : MetricsOut) (pdf1 : PDF) (st1 : FxCache)
    (hr : st.rate = some r0) (ht : st.time = some t0)
    (hv1 : now1 - t0 < 3600) (hv2 : now2 - t0 < 3600)
    (h1 : calculate_portfolio_metrics pdf sim st now1 fx1
        = Except.ok (m1, pdf1, st1)) :
    ∀ sim2 fx2, calculate_portfolio_metrics pdf1 sim2 st1 now2 fx2
        = Except.ok (m1, pdf1, st1) := by
  intro sim2 fx2
  have hg1 := get_exchange_rate_warm st now1 fx1 r0 t0 hr ht hv1
  have hg2 := get_exchange_rate_warm st now2 fx2 r0 t0 hr ht hv2
  have hrate1 : (get_exchange_rate "USD" "BRL" st now1 fx1).rate = r0 := by
    rw [hg1]
  have hcache1 : (get_exchange_rate "USD" "BRL" st now1 fx1).cache = st := by
    rw [hg1]
  have hrate2 : (get_exchange_rate "USD" "BRL" st now2 fx2).rate = r0 := by
    rw [hg2]
  have hcache2 : (get_exchange_rate "USD" "BRL" st now2 fx2).cache = st := by
    rw [hg2]
  by_cases hnil : pdf.rows.isEmpty
  · unfold calculate_portfolio_metrics at h1
    rw [if_pos hnil] at h1
    simp only [Except.ok.injEq, Prod.mk.injEq] at h1
    obtain ⟨h1a, h1b, h1c⟩ := h1
    subst h1a
    subst h1b
    subst h1c
    unfold calculate_portfolio_metrics
    rw [if_pos hnil]
  · unfold calculate_portfolio_metrics at h1
    rw [if_neg hnil] at h1
    by_cases hreq : pdf.hasRequired
    · rw [if_neg (by simp [hreq])] at h1
      simp only [] at h1
      cases hcc : calcCore (attachPrices pdf sim).rows
          (attachPrices pdf sim).hasMoeda (attachPrices pdf sim).hasSetor
          (get_exchange_rate "USD" "BRL" st now1 fx1).rate with
      | error e =>
        rw [hcc] at h1
        simp at h1
      | ok m0 =>
        rw [hcc] at h1
        rw [hrate1] at hcc
        simp only [Except.ok.injEq, Prod.mk.injEq] at h1
        obtain ⟨h1a, h1b, h1c⟩ := h1
        rw [hcache1] at h1c
        subst h1a
        subst h1b
        subst h1c
        unfold calculate_portfolio_metrics
        rw [if_neg (by rw [attachPrices_isEmpty]; exact hnil)]
        rw [if_neg (by rw [Bool.not_eq_true', Bool.not_eq_false,
          attachPrices_hasRequired]; exact hreq)]
        simp only []
        rw [attachPrices_idem, hrate2, hcc, hcache2]
    · rw [if_pos (by simp [hreq])] at h1
      simp at h1

/-- C9 witness: on the concrete mixed portfolio `c2pdf` with a warm cache
(rate 5 fetched at time 0), a second call right after the first returns the
identical metrics, DataFrame and state, even with a different draw stream
and provider answer. -/
theorem C9_witness :
    calculate_portfolio_metrics c2pdf (fun _ => 1)
        { rate := some 5, time := some 0 } 0 (some 3)
      = Except.ok (MetricsOut.full c2metrics, c2pdf,
          { rate := some 5, time := some 0 }) := by
  have hcalc : calculate_portfolio_metrics c2pdf (fun _ => 0)
      { rate := some 5, time := some 0 } 0 none
      = Except.ok (MetricsOut.full c2metrics, c2pdf,
          { rate := some 5, time := some 0 }) := by
    norm_num +decide [calculate_portfolio_metrics, attachPrices,
      get_exchange_rate, fxCacheValid, calcCore, mkCompRow, idxmaxE,
      idxminE, pickIdxAux, extLt, extDiv, extMul100, currencyMetricsOf,
      sectorMetricsOf, dedupFirst, c2pdf, c2metrics, List.sum_cons,
      List.sum_nil, List.filter, List.get?]
  exact C9_idempotent c2pdf (fun _ => 0) { rate := some 5, time := some 0 }
    0 0 none 5 0 (MetricsOut.full c2metrics) c2pdf
    { rate := some 5, time := some 0 } rfl rfl (by norm_num)
    (by norm_num) hcalc (fun _ => 1) (some 3)

theorem attachRowsAux_get? (sim : ℕ → ℚ) :
    ∀ (l : List PHolding) (i0 i : ℕ) (r : PHolding), l.get? i = some r →
      (attachRowsAux sim i0 l).get? i
        = some { r with precoAtual := r.precoMedio * (1 + sim (i0 + i)) } := by
  intro l
  induction l with
  | nil =>
    intro i0 i r hr
    simp [List.get?] at hr
  | cons r' rest ih =>
    intro i0 i r hr
    cases i with
    | zero =>
      simp only [List.get?] at hr
      injection hr with hr
      subst hr
      rfl
    | succ n =>
      simp only [List.get?] at hr
      have := ih (i0 + 1) n r hr
      unfold attachRowsAux
      simp only [List.get?]
      rw [this]
      have harith : i0 + 1 + n = i0 + (n + 1) := by omega
      rw [harith]

/-- C10: frame effect of `calculate_portfolio_metrics` on the caller's
DataFrame.  For a non-empty DataFrame with the required columns: when the
`preco_atual` column is absent, the caller's DataFrame comes back with a
simulated current-price column written into it (row i gets
`preco_medio * (1 + draw i)`, one seeded uniform(-0.15, 0.25) draw per
row) and the presence flag set; when the column is already present, the
caller's DataFrame is returned unchanged (all other work happens on the
copy). -/
theorem C10_frame_effect (pdf : PDF) (sim : ℕ → ℚ) (st : FxCache)
    (now : ℚ) (fxFetch : Option ℚ) (out : MetricsOut) (pdf2 : PDF)
    (st2 : FxCache)
    (hsim : ∀ i, -(3/20 : ℚ) ≤ sim i ∧ sim i ≤ 1/4)
    (hne : pdf.rows ≠ [])
    (h : calculate_portfolio_metrics pdf sim st now fxFetch
        = Except.ok (out, pdf2, st2)) :
    (pdf.hasPrecoAtual = false →
      pdf2 = { pdf with
                rows := attachRowsAux sim 0 pdf.rows,
                hasPrecoAtual := true }
      ∧ ∀ i r, pdf.rows.get? i = some r →
          pdf2.rows.get? i
            = some { r with precoAtual := r.precoMedio * (1 + sim i) })
    ∧ (pdf.hasPrecoAtual = true → pdf2 = pdf) := by
  have hp2 : pdf2 = attachPrices pdf sim := by
    unfold calculate_portfolio_metrics at h
    rw [if_neg (by simp [List.isEmpty_iff, hne])] at h
    by_cases hreq : pdf.hasRequired
    · rw [if_neg (by simp [hreq])] at h
      simp only [] at h
      cases hcc : calcCore (attachPrices pdf sim).rows
          (attachPrices pdf sim).hasMoeda (attachPrices pdf sim).hasSetor
          (get_exchange_rate "USD" "BRL" st now fxFetch).rate with
      | error e =>
        rw [hcc] at h
        simp at h
      | ok m0 =>
        rw [hcc] at h
        simp only [Except.ok.injEq, Prod.mk.injEq] at h
        exact h.2.1.symm
    · rw [if_pos (by simp [hreq])] at h
      simp at h
  constructor
  · intro hpa
    have hatt : attachPrices pdf sim
        = { pdf with
            rows := attachRowsAux sim 0 pdf.rows,
            hasPrecoAtual := true } := by
      unfold attachPrices
      rw [if_neg (by simp [hpa])]
    refine ⟨by rw [hp2, hatt], ?_⟩
    intro i r hr
    rw [hp2, hatt]
    have := attachRowsAux_get? sim pdf.rows 0 i r hr
    rw [Nat.zero_add] at this
    exact this
  · intro hpa
    rw [hp2]
    unfold attachPrices
    rw [if_pos hpa]

/-- A one-holding portfolio whose DataFrame lacks the `preco_atual`
column. -/
def c10pdf : PDF :=
  { rows := [{ ticker := "PETR4", precoMedio := 20, quantidade := 100,
               precoAtual := 0, moeda := "BRL", setor := "" }],
    hasRequired := true, hasPrecoAtual := false, hasMoeda := true,
    hasSetor := false }

/-- The caller's DataFrame after the call on `c10pdf` with the zero draw
stream: the simulated `preco_atual` column (20 x (1 + 0) = 20) has been
written into it. -/
def c10attached : PDF :=
  { rows := [{ ticker := "PETR4", precoMedio := 20, quantidade := 100,
               precoAtual := 20, moeda := "BRL", setor := "" }],
    hasRequired := true, hasPrecoAtual := true, hasMoeda := true,
    hasSetor := false }

/-- The metrics of the `c10pdf` run at rate 5 (current price simulated as
exactly the average cost, so all returns are 0). -/
def c10metrics : PortfolioMetrics :=
  { totalInvestment := 2000, currentValue := 2000, totalReturn := 0,
    percentReturn := 0,
    bestPerformer := { ticker := "PETR4", returnPercent := ExtVal.fin 0 },
    worstPerformer := { ticker := "PETR4", returnPercent := ExtVal.fin 0 },
    currencyMetrics := [{ currency := "BRL", investment := 2000,
                          currentValue := 2000, percentage := 100 }],
    sectorMetrics := [],
    portfolioData := [{ ticker := "PETR4", precoMedio := 20,
                        quantidade := 100, precoAtual := 20,
                        moeda := "BRL", setor := "",
                        valorInvestidoOrig := 2000, valorAtualOrig := 2000,
                        valorInvestidoBrl := 2000, valorAtualBrl := 2000,
                        retornoValorOrig := 0, retornoValorBrl := 0,
                        retornoPercentual := ExtVal.fin 0 }],
    exchangeRateUsdBrl := 5 }

/-- C10 witness: the frame-effect theorem applied to the concrete `c10pdf`
run: the caller's DataFrame gains the simulated price column, whose row 0
holds `preco_medio * (1 + draw 0)`. -/
theorem C10_witness :
    c10attached = { c10pdf with
                    rows := attachRowsAux (fun _ => 0) 0 c10pdf.rows,
                    hasPrecoAtual := true }
    ∧ c10attached.rows.get? 0
        = some { ticker := "PETR4", precoMedio := 20, quantidade := 100,
                 precoAtual := 20 * (1 + (0 : ℚ)), moeda := "BRL",
                 setor := "" } := by
  have hcalc : calculate_portfolio_metrics c10pdf (fun _ => 0)
      { rate := some 5, time := some 0 } 0 none
      = Except.ok (MetricsOut.full c10metrics, c10attached,
          { rate := some 5, time := some 0 }) := by
    norm_num +decide [calculate_portfolio_metrics, attachPrices,
      attachRowsAux, get_exchange_rate, fxCacheValid, calcCore, mkCompRow,
      idxmaxE, idxminE, pickIdxAux, extLt, extDiv, extMul100,
      currencyMetricsOf, sectorMetricsOf, dedupFirst, c10pdf, c10attached,
      c10metrics, List.sum_cons, List.sum_nil, List.filter, List.get?]
  have h := (C10_frame_effect c10pdf (fun _ => 0)
    { rate := some 5, time := some 0 } 0 none
    (MetricsOut.full c10metrics) c10attached
    { rate := some 5, time := some 0 } (fun i => by norm_num)
    (by simp [c10pdf]) hcalc).1 rfl
  refine ⟨h.1, ?_⟩
  exact h.2 0 { ticker := "PETR4", precoMedio := 20, quantidade := 100,
                precoAtual := 0, moeda := "BRL", setor := "" } rfl

/-! ### Claim theorems: price updater -/

theorem updateOneRow_failure (provider : List Char → TickerData) (rand : ℚ)
    (rate : ℚ) (cache : List (List Char × PriceInfo)) (r : URow)
    (hf : fetch_current_price r.ticker (provider r.ticker) = none) :
    updateOneRow false provider rand rate cache r
      = ({ ticker := r.ticker, precoMedio := r.precoMedio, moeda := r.moeda,
           precoAtual := r.precoMedio * (1 + rand),
           precoAtualBrl :=
             if r.moeda = "USD"
             then some (r.precoMedio * (1 + rand) * rate) else none,
           precoOriginal := r.precoMedio * (1 + rand),
           moedaOriginal := r.moeda }, cache) := by
  unfold updateOneRow
  rw [hf]
  rfl

theorem updateRowsAux_length (useCache : Bool)
    (provider : List Char → TickerData) (rand : ℕ → ℚ) (rate : ℚ) :
    ∀ (l : List URow) (i : ℕ) (cache : List (List Char × PriceInfo)),
      ((updateRowsAux useCache provider rand rate i cache l).1).length
        = l.length := by
  intro l
  induction l with
  | nil =>
    intro i cache
    rfl
  | cons r rest ih =>
    intro i cache
    unfold updateRowsAux
    simp only [List.length_cons]
    rw [ih]

theorem updateRowsAux_failure (provider : List Char → TickerData)
    (rand : ℕ → ℚ) (rate : ℚ) :
    ∀ (l : List URow) (i0 : ℕ) (cache : List (List Char × PriceInfo))
      (j : ℕ) (r : URow),
      l.get? j = some r →
      fetch_current_price r.ticker (provider r.ticker) = none →
      (((updateRowsAux false provider rand rate i0 cache l).1.get? j).map
          (fun o => o.precoAtual))
        = some (r.precoMedio * (1 + rand (i0 + j))) := by
  intro l
  induction l with
  | nil =>
    intro i0 cache j r hr
    simp [List.get?] at hr
  | cons r' rest ih =>
    intro i0 cache j r hr hf
    cases j with
    | zero =>
      simp only [List.get?] at hr
      injection hr with hr
      subst hr
      unfold updateRowsAux
      simp only [List.get?]
      rw [updateOneRow_failure provider (rand i0) rate cache r' hf]
      simp
    | succ n =>
      simp only [List.get?] at hr
      unfold updateRowsAux
      simp only [List.get?]
      have := ih (i0 + 1)
        (updateOneRow false provider (rand i0) rate cache r').2 n r hr hf
      rw [this]
      have harith : i0 + 1 + n = i0 + (n + 1) := by omega
      rw [harith]

/-- C8: in `update_portfolio_prices` (no fresh session price cache, so the
gateway is consulted for every row), every holding whose price fetch
completely fails receives the estimate
`average_cost x (1 + uniform_random(-0.05, 0.05))` as its current price,
and the pass still produces one output row per input row — a single
ticker's failure never aborts the whole valuation pass. -/
theorem C8_fetch_failure_estimate (rows : List URow) (hasMoeda : Bool)
    (sessionCache : List (List Char × PriceInfo))
    (provider : List Char → TickerData) (rand : ℕ → ℚ) (fxc : FxCache)
    (now : ℚ) (fxFetch : Option ℚ)
    (hrand : ∀ i, -(1/20 : ℚ) ≤ rand i ∧ rand i ≤ 1/20) :
    ((update_portfolio_prices rows hasMoeda false sessionCache provider
        rand fxc now fxFetch).1).length = rows.length
    ∧ (∀ i r, rows.get? i = some r →
        fetch_current_price r.ticker (provider r.ticker) = none →
        (((update_portfolio_prices rows hasMoeda false sessionCache
            provider rand fxc now fxFetch).1.get? i).map
            (fun o => o.precoAtual))
          = some (r.precoMedio * (1 + rand i))) := by
  unfold update_portfolio_prices
  by_cases hnil : rows.isEmpty
  · rw [if_pos hnil]
    have hrows : rows = [] := List.isEmpty_iff.mp hnil
    subst hrows
    constructor
    · rfl
    · intro i r hr
      simp [List.get?] at hr
  · rw [if_neg hnil]
    simp only []
    set rows2 := if hasMoeda then rows
      else rows.map (fun r => { r with moeda := "BRL" }) with hrows2
    set rate := (get_exchange_rate "USD" "BRL" fxc now fxFetch).rate
      with hrate
    have hlen2 : rows2.length = rows.length := by
      rw [hrows2]
      by_cases hm : hasMoeda
      · rw [if_pos hm]
      · rw [if_neg hm, List.length_map]
    constructor
    · rw [updateRowsAux_length, hlen2]
    · intro i r hr hf
      have hr2 : rows2.get? i
          = some (if hasMoeda then r else { r with moeda := "BRL" }) := by
        rw [hrows2]
        by_cases hm : hasMoeda
        · rw [if_pos hm, if_pos hm, hr]
        · rw [if_neg hm, if_neg hm, List.get?_map, hr]
          rfl
      have hf2 : fetch_current_price
          (if hasMoeda then r else { r with moeda := "BRL" }).ticker
          (provider
            (if hasMoeda then r
             else { r with moeda := "BRL" }).ticker) = none := by
        by_cases hm : hasMoeda
        · rw [if_pos hm]
          exact hf
        · rw [if_neg hm]
          exact hf
      have := updateRowsAux_failure provider rand rate rows2 0
        (if false then sessionCache else []) i
        (if hasMoeda then r else { r with moeda := "BRL" }) hr2 hf2
      rw [Nat.zero_add] at this
      rw [this]
      by_cases hm : hasMoeda
      · rw [if_pos hm]
      · rw [if_neg hm]

/-- Two holdings: a ticker the provider has no data for, and one with a
daily close. -/
def c8rows : List URow :=
  [{ ticker := "FAIL1".toList, precoMedio := 10, moeda := "BRL" },
   { ticker := "PETR4".toList, precoMedio := 30, moeda := "BRL" }]

/-- A provider with a daily close only for PETR4. -/
def c8provider (t : List Char) : TickerData :=
  if t = "PETR4".toList then
    { closeHist := [50],
      info := { currentPrice := none, regularMarketPrice := none,
                previousClose := none, openPrice := none, dayHigh := none,
                ask := none } }
  else
    { closeHist := [],
      info := { currentPrice := none, regularMarketPrice := none,
                previousClose := none, openPrice := none, dayHigh := none,
                ask := none } }

/-- C8 witness: with one failing ticker and one succeeding ticker, the pass
still yields two rows, and the failing row's current price is the estimate
`average_cost x (1 + draw)`. -/
theorem C8_witness :
    ((update_portfolio_prices c8rows true false [] c8provider (fun _ => 0)
        { rate := some 5, time := some 0 } 0 none).1).length = 2
    ∧ (((update_portfolio_prices c8rows true false [] c8provider
          (fun _ => 0) { rate := some 5, time := some 0 } 0
          none).1.get? 0).map (fun o => o.precoAtual))
        = some (10 * (1 + (0 : ℚ))) := by
  have h := C8_fetch_failure_estimate c8rows true [] c8provider
    (fun _ => 0) { rate := some 5, time := some 0 } 0 none
    (fun i => by norm_num)
  refine ⟨h.1.trans rfl, ?_⟩
  exact h.2 0
    { ticker := "FAIL1".toList, precoMedio := 10, moeda := "BRL" } rfl rfl
